import Mathlib

/-!
Verification of `resize_image.py`: a batch image-resizing CLI tool.

The program is embedded shallowly:
* Python `float` arithmetic is modelled exactly over `ℚ` (the spec's scaling
  policy is stated in exact arithmetic);
* the filesystem and the OpenCV codec are oracles (`FS`, `Codec`), matching
  the spec's treatment of them as opaque external capabilities;
* the thread pool is modelled as a sequential execution of the submitted
  tasks in submission order, together with an order-insensitive tally of the
  results; the `as_completed` completion order is an arbitrary permutation
  of the submission order, and the tally is proved permutation-invariant.
-/

namespace ResizeImage

/-- Python `int()` applied to a rational: truncation toward zero. -/
def pyInt (q : ℚ) : ℤ := if 0 ≤ q then ⌊q⌋ else -⌊-q⌋

/-- The dimension computation inside `resize_image`:
`ratio = float(w) / h; if w > h: w = larger_edge; h = int(w / ratio)
else: h = larger_edge; w = int(h * ratio)`; returns the `(w, h)` pair
passed to `cv2.resize`. -/
def scaleDims (w h : ℕ) (larger_edge : ℤ) : ℤ × ℤ :=
  let ratio : ℚ := (w : ℚ) / (h : ℚ)
  if w > h then
    (larger_edge, pyInt ((larger_edge : ℚ) / ratio))
  else
    (pyInt ((larger_edge : ℚ) * ratio), larger_edge)

/-- Python `str.rfind` on a list of characters: the index of the last
occurrence of `c`, `-1` when absent. -/
def rfind (c : Char) : List Char → ℤ
  | [] => -1
  | x :: xs =>
    let r := rfind c xs
    if 0 ≤ r then r + 1 else if x = c then 0 else -1

/-- The extension component of `os.path.splitext` (posix): the suffix from
the last `.`, provided that dot lies after the last `/` and the basename has
at least one non-dot character before it (so `.bashrc` has no extension). -/
def splitextExt (p : String) : String :=
  let s := p.data
  let sepIndex := rfind '/' s
  let dotIndex := rfind '.' s
  if sepIndex < dotIndex ∧
      ((s.drop (sepIndex + 1).toNat).take (dotIndex - sepIndex - 1).toNat).any
        (fun ch => ch ≠ '.') then
    ⟨s.drop dotIndex.toNat⟩
  else ""

/-- `os.path.join` for a directory and a relative entry name (the only form
the program uses). -/
def pathJoin (d name : String) : String := d ++ "/" ++ name

/-- `image_ext_set = set(['.jpg', '.png', '.jpeg'])`. -/
def image_ext_set : List String := [".jpg", ".png", ".jpeg"]

/-- A decoded raster as unpacked from `img.shape`: `h, w, c`. -/
structure Image where
  h : ℕ
  w : ℕ
  c : ℕ
deriving DecidableEq

/-- The filesystem capability: which paths are regular files, which are
directories, and the listing of a directory (`os.listdir`). -/
structure FS where
  files : List String
  isDir : String → Bool
  listing : String → List String

/-- The OpenCV codec capability, treated as opaque: `imread` yields `none`
when the file cannot be decoded (Python then raises when unpacking
`img.shape`); `resizeRaises`/`imwriteRaises` mark inputs on which
`cv2.resize`/`cv2.imwrite` raise an exception. -/
structure Codec where
  imread : String → Option Image
  resizeRaises : Image → ℤ × ℤ → Bool
  imwriteRaises : String → Bool

/-- Outcome of one `resize_image` call: the returned boolean, the lines it
printed, and the set of regular files after it (on success `cv2.imwrite`
creates the destination file). -/
structure ItemResult where
  ok : Bool
  msgs : List String
  files : List String
deriving DecidableEq

/-- The failure line printed by the `except` clause (the oracle does not
carry the Python exception text). -/
def resizeFailMsg (src : String) : String := "resize failed, file = " ++ src

/-- `resize_image(src_file_path, dst_file_path, larger_edge)`: checks that
the source is a regular file, then inside `try`: decodes, computes the
scaled dimensions, resizes and writes.  Any exception (decode returning no
data, zero height in `float(w)/h`, a raising resize or write) is caught and
turned into a printed message and `False`. -/
def resize_image (codec : Codec) (files : List String)
    (src_file_path dst_file_path : String) (larger_edge : ℤ) : ItemResult :=
  if src_file_path ∉ files then
    { ok := false, msgs := ["file not exist: " ++ src_file_path], files := files }
  else
    match codec.imread src_file_path with
    | none =>
      { ok := false, msgs := [resizeFailMsg src_file_path], files := files }
    | some img =>
      if img.h = 0 then
        { ok := false, msgs := [resizeFailMsg src_file_path], files := files }
      else
        if codec.resizeRaises img (scaleDims img.w img.h larger_edge) then
          { ok := false, msgs := [resizeFailMsg src_file_path], files := files }
        else if codec.imwriteRaises dst_file_path then
          { ok := false, msgs := [resizeFailMsg src_file_path], files := files }
        else
          { ok := true, msgs := [], files := dst_file_path :: files }

/-- The work-enumeration loop of `resize_image_dir`: for each entry of
`os.listdir(src_dir)`, skip it unless its `splitext` extension is in
`image_ext_set`, skip it if a regular file already exists at the computed
destination path, otherwise append the `(source, destination)` pair. -/
def enumerate (files : List String) (names : List String)
    (src_dir dst_dir : String) : List (String × String) :=
  names.filterMap (fun file_name =>
    if splitextExt file_name ∉ image_ext_set then none
    else
      let dst_file_path := pathJoin dst_dir file_name
      if dst_file_path ∈ files then none
      else some (pathJoin src_dir file_name, dst_file_path))

/-- Execution of the submitted tasks, in submission order, threading the
filesystem state: returns the list of task results, the printed lines, and
the final file set.  (The pool runs tasks concurrently, but each task only
reads its own source path and creates its own destination path, so the
sequential execution is an admissible linearization.) -/
def runTasks (codec : Codec) (larger_edge : ℤ) :
    List (String × String) → List String → List Bool × List String × List String
  | [], files => ([], [], files)
  | (src, dst) :: rest, files =>
    let r := resize_image codec files src dst larger_edge
    let (results, msgs, files1) := runTasks codec larger_edge rest r.files
    (r.ok :: results, r.msgs ++ msgs, files1)

/-- The result-collection loop over `as_completed(fs)`: starting from
`ok_cnt, fail_cnt = 0, 0`, each completed task increments exactly one of the
two counters. -/
def tally (results : List Bool) : ℕ × ℕ :=
  results.foldl (fun acc r => if r then (acc.1 + 1, acc.2) else (acc.1, acc.2 + 1))
    (0, 0)

/-- Outcome of one `resize_image_dir` call: the returned boolean, the
`file_pair_list` it built, the final counter values, the printed lines, and
the filesystem afterwards. -/
structure DirResult where
  ok : Bool
  pairs : List (String × String)
  okCnt : ℕ
  failCnt : ℕ
  msgs : List String
  fs : FS

/-- `if not osp.isdir(dst_dir): os.makedirs(dst_dir)` — the destination
directory is created when absent (a side effect on the filesystem, not an
error condition). -/
def mkdirs (fs : FS) (dst_dir : String) : FS :=
  if fs.isDir dst_dir = false then
    { fs with isDir := fun p => p == dst_dir || fs.isDir p }
  else fs

/-- `resize_image_dir(src_dir, dst_dir, larger_edge)`: fails only when the
source directory does not exist; creates the destination directory when
absent; enumerates the pending work; returns `True` at once (printing
`no image to resize`) when there is none; otherwise submits every pair,
tallies the results as they complete, and returns `True`.  (The milestone
and final-summary prints carry only the counter values, which the result
records directly.) -/
def resize_image_dir (codec : Codec) (fs : FS)
    (src_dir dst_dir : String) (larger_edge : ℤ) : DirResult :=
  if fs.isDir src_dir = false then
    { ok := false, pairs := [], okCnt := 0, failCnt := 0,
      msgs := ["dir not exist: " ++ src_dir], fs := fs }
  else
    let fs1 : FS := mkdirs fs dst_dir
    let file_pair_list := enumerate fs1.files (fs1.listing src_dir) src_dir dst_dir
    if file_pair_list.isEmpty then
      { ok := true, pairs := file_pair_list, okCnt := 0, failCnt := 0,
        msgs := ["no image to resize"], fs := fs1 }
    else
      let out := runTasks codec larger_edge file_pair_list fs1.files
      let t := tally out.1
      { ok := true, pairs := file_pair_list, okCnt := t.1, failCnt := t.2,
        msgs := out.2.1, fs := { fs1 with files := out.2.2 } }

/-- Outcome of the `__main__` block. -/
inductive MainOutcome
  | usage : MainOutcome
  | unpackError : MainOutcome
  | run : String → String → String → MainOutcome
deriving DecidableEq

/-- The `__main__` block: `argv` is `sys.argv`, program name included.
When `len(sys.argv) < 3` it prints the usage lines; otherwise it unpacks
`sys.argv[1:4]` into three variables — a `ValueError` (modelled as
`unpackError`) when the slice holds fewer than three elements — and calls
`resize_image_dir(src_dir, dst_dir, int(larger_edge))`. -/
def mainStep (argv : List String) : MainOutcome :=
  if argv.length < 3 then .usage
  else
    match (argv.drop 1).take 3 with
    | [src_dir, dst_dir, larger_edge] => .run src_dir dst_dir larger_edge
    | _ => .unpackError

/-- A codec for concrete runs: decoding always succeeds with a 200x100
3-channel raster, and resize and write never raise. -/
def egCodec : Codec where
  imread := fun _ => some { h := 100, w := 200, c := 3 }
  resizeRaises := fun _ _ => false
  imwriteRaises := fun _ => false

/-- A codec whose decode always fails, as for corrupt or zero-byte files. -/
def egBadCodec : Codec where
  imread := fun _ => none
  resizeRaises := fun _ _ => false
  imwriteRaises := fun _ => false

/-- A source directory `in` holding `b.jpg` (already resized: `out/b.jpg`
exists) and `notes.txt`. -/
def egFS : FS where
  files := ["out/b.jpg"]
  isDir := fun p => p == "in"
  listing := fun p => if p == "in" then ["b.jpg", "notes.txt"] else []

/-- A source directory `in` whose only entry `sub.jpg` is a subdirectory,
not a regular file. -/
def egSubdirFS : FS where
  files := []
  isDir := fun p => p == "in"
  listing := fun p => if p == "in" then ["sub.jpg"] else []

/-! ### Arithmetic facts about the dimension computation -/

lemma pyInt_natCast_div (a b : ℕ) :
    pyInt ((a : ℚ) / (b : ℚ)) = ((a / b : ℕ) : ℤ) := by
  have h0 : (0 : ℚ) ≤ (a : ℚ) / (b : ℚ) := by positivity
  have h1 : ⌊(a : ℚ) / (b : ℚ)⌋₊ = a / b := Nat.floor_div_eq_div a b
  rw [pyInt, if_pos h0, ← Int.toNat_of_nonneg (Int.floor_nonneg.mpr h0),
    Int.floor_toNat, h1]

/-- The dimension computation, rephrased with natural division: since all
quantities are nonnegative, Python's `int()` truncation agrees with natural
floor division. -/
lemma scaleDims_eq (w h E : ℕ) :
    scaleDims w h (E : ℤ) =
      if h < w then ((E : ℤ), ((E * h / w : ℕ) : ℤ))
      else (((E * w / h : ℕ) : ℤ), (E : ℤ)) := by
  unfold scaleDims
  by_cases hw : h < w
  · rw [if_pos hw, if_pos hw]
    have e : (((E : ℤ) : ℚ)) / ((w : ℚ) / (h : ℚ)) = ((E * h : ℕ) : ℚ) / ((w : ℕ) : ℚ) := by
      push_cast
      rw [div_div_eq_mul_div]
    rw [e, pyInt_natCast_div]
  · rw [if_neg hw, if_neg hw]
    have e : (((E : ℤ) : ℚ)) * ((w : ℚ) / (h : ℚ)) = ((E * w : ℕ) : ℚ) / ((h : ℕ) : ℚ) := by
      push_cast
      rw [mul_div_assoc]
    rw [e, pyInt_natCast_div]

lemma div_le_of_le (a b c : ℕ) (hc : 0 < c) (hab : a ≤ b * c) : a / c ≤ b := by
  have := Nat.div_le_div_right (c := c) hab
  simpa [Nat.mul_div_cancel _ hc] using this

/-- Aspect-ratio error bound for the height-driven (`else`) branch:
writing `m = E * w / h`, if `m > 0` then the produced ratio `m / E` is
within `1 / m` of `w / h`. -/
lemma aspect_bound_else (w h E : ℕ) (hh : 0 < h) (hE : 0 < E) (hwh : w ≤ h)
    (hm : 0 < E * w / h) :
    |((E * w / h : ℕ) : ℚ) / (E : ℚ) - (w : ℚ) / (h : ℚ)|
      ≤ 1 / ((E * w / h : ℕ) : ℚ) := by
  set m : ℕ := E * w / h with hm_def
  set r : ℕ := E * w % h with hr_def
  have hsplit : E * w = m * h + r := by
    rw [hm_def, hr_def, Nat.mul_comm (E * w / h) h, Nat.div_add_mod]
  have hrh : r < h := Nat.mod_lt _ hh
  have hmE : m ≤ E := div_le_of_le (E * w) E h hh (Nat.mul_le_mul_left E hwh)
  have hE0 : (E : ℚ) ≠ 0 := by positivity
  have hh0 : (h : ℚ) ≠ 0 := by positivity
  have hm0 : (0 : ℚ) < (m : ℚ) := by exact_mod_cast hm
  have key : ((E : ℚ)) * w = (m : ℚ) * h + r := by exact_mod_cast hsplit
  have hr' : (r : ℚ) = (E : ℚ) * w - (m : ℚ) * h := by linarith [key]
  have e1 : (w : ℚ) / h - (m : ℚ) / E = (r : ℚ) / ((E : ℚ) * h) := by
    rw [hr']
    field_simp
    ring
  rw [abs_sub_comm, e1, abs_of_nonneg (by positivity)]
  rw [div_le_div_iff₀ (by positivity) hm0]
  have hcount : (r : ℚ) * m ≤ (h : ℚ) * E := by
    exact_mod_cast Nat.mul_le_mul hrh.le hmE
  nlinarith [hcount]

/-- Aspect-ratio error bound for the width-driven (`if`) branch, in the
height-over-width orientation: `(E * h / w) / E` is within `1 / E` of
`h / w`. -/
lemma aspect_bound_if (w h E : ℕ) (hw : 0 < w) (hE : 0 < E) :
    |((E * h / w : ℕ) : ℚ) / (E : ℚ) - (h : ℚ) / (w : ℚ)| ≤ 1 / (E : ℚ) := by
  set m : ℕ := E * h / w with hm_def
  set r : ℕ := E * h % w with hr_def
  have hsplit : E * h = m * w + r := by
    rw [hm_def, hr_def, Nat.mul_comm (E * h / w) w, Nat.div_add_mod]
  have hrw : r < w := Nat.mod_lt _ hw
  have hE0 : (E : ℚ) ≠ 0 := by positivity
  have hw0 : (w : ℚ) ≠ 0 := by positivity
  have hEpos : (0 : ℚ) < (E : ℚ) := by exact_mod_cast hE
  have key : ((E : ℚ)) * h = (m : ℚ) * w + r := by exact_mod_cast hsplit
  have hr' : (r : ℚ) = (E : ℚ) * h - (m : ℚ) * w := by linarith [key]
  have e1 : (h : ℚ) / w - (m : ℚ) / E = (r : ℚ) / ((E : ℚ) * w) := by
    rw [hr']
    field_simp
    ring
  rw [abs_sub_comm, e1, abs_of_nonneg (by positivity)]
  rw [div_le_div_iff₀ (by positivity) hEpos]
  have hcount : (r : ℚ) * E ≤ (w : ℚ) * E := by
    have : r ≤ w := hrw.le
    have := Nat.mul_le_mul_right E this
    exact_mod_cast this
  nlinarith [hcount]

/-! ### Facts about the batch runner -/

lemma tally_foldl (l : List Bool) (a b : ℕ) :
    l.foldl (fun acc r => if r then (acc.1 + 1, acc.2) else (acc.1, acc.2 + 1)) (a, b)
      = (a + l.count true, b + l.count false) := by
  induction l generalizing a b with
  | nil => simp
  | cons x xs ih =>
    cases x <;> simp [List.count_cons, ih] <;> omega

lemma tally_eq_counts (l : List Bool) : tally l = (l.count true, l.count false) := by
  simpa using tally_foldl l 0 0

lemma tally_fst (l : List Bool) : (tally l).1 = l.count true := by
  rw [tally_eq_counts]

lemma tally_snd (l : List Bool) : (tally l).2 = l.count false := by
  rw [tally_eq_counts]

lemma count_true_add_count_false (l : List Bool) :
    l.count true + l.count false = l.length := by
  induction l with
  | nil => simp
  | cons x xs ih => cases x <;> simp [List.count_cons] <;> omega

lemma tally_sum (l : List Bool) : (tally l).1 + (tally l).2 = l.length := by
  rw [tally_eq_counts]
  exact count_true_add_count_false l

lemma all_true_of_count_false_eq_zero (l : List Bool) (h : l.count false = 0) :
    ∀ b ∈ l, b = true := by
  intro b hb
  cases b
  · exact absurd (List.count_eq_zero.mp h) (by simp [hb])
  · rfl

lemma runTasks_length (codec : Codec) (E : ℤ) :
    ∀ (pairs : List (String × String)) (files : List String),
      ((runTasks codec E pairs files).1).length = pairs.length := by
  intro pairs
  induction pairs with
  | nil => intro files; rfl
  | cons p rest ih =>
    intro files
    obtain ⟨s, d⟩ := p
    simp [runTasks, ih]

/-- The per-item side effect: on success `cv2.imwrite` creates the
destination file, otherwise the file set is unchanged. -/
lemma resize_image_files_eq (codec : Codec) (files : List String)
    (src dst : String) (E : ℤ) :
    (resize_image codec files src dst E).files =
      if (resize_image codec files src dst E).ok = true then dst :: files
      else files := by
  unfold resize_image
  by_cases h1 : src ∈ files
  · cases himg : codec.imread src with
    | none => simp [h1, himg]
    | some img =>
      by_cases h2 : img.h = 0
      · simp [h1, himg, h2]
      · by_cases h3 : codec.resizeRaises img (scaleDims img.w img.h E) = true
        · simp [h1, himg, h2, h3]
        · by_cases h4 : codec.imwriteRaises dst = true
          · simp [h1, himg, h2, h3, h4]
          · simp [h1, himg, h2, h3, h4]
  · simp [h1]

lemma resize_image_files_sub (codec : Codec) (files : List String)
    (src dst : String) (E : ℤ) :
    files ⊆ (resize_image codec files src dst E).files := by
  rw [resize_image_files_eq]
  split
  · exact fun x hx => List.mem_cons_of_mem _ hx
  · exact fun x hx => hx

lemma resize_image_files_of_ok (codec : Codec) (files : List String)
    (src dst : String) (E : ℤ)
    (h : (resize_image codec files src dst E).ok = true) :
    (resize_image codec files src dst E).files = dst :: files := by
  rw [resize_image_files_eq, if_pos h]

lemma resize_image_files_cases (codec : Codec) (files : List String)
    (src dst : String) (E : ℤ) :
    (resize_image codec files src dst E).files = files ∨
      (resize_image codec files src dst E).files = dst :: files := by
  rw [resize_image_files_eq]
  split
  · exact Or.inr rfl
  · exact Or.inl rfl

lemma runTasks_files_sub (codec : Codec) (E : ℤ) :
    ∀ (pairs : List (String × String)) (files : List String),
      files ⊆ (runTasks codec E pairs files).2.2 := by
  intro pairs
  induction pairs with
  | nil => intro files; exact fun x hx => hx
  | cons p rest ih =>
    intro files
    obtain ⟨s, d⟩ := p
    intro x hx
    have h1 : x ∈ (resize_image codec files s d E).files :=
      resize_image_files_sub codec files s d E hx
    simpa [runTasks] using ih (resize_image codec files s d E).files h1

/-- When every task result is `true`, every submitted pair's destination is
a regular file afterwards. -/
lemma runTasks_all_ok_dst (codec : Codec) (E : ℤ) :
    ∀ (pairs : List (String × String)) (files : List String),
      (∀ b ∈ (runTasks codec E pairs files).1, b = true) →
      ∀ p ∈ pairs, p.2 ∈ (runTasks codec E pairs files).2.2 := by
  intro pairs
  induction pairs with
  | nil => intro files _ p hp; exact absurd hp (List.not_mem_nil p)
  | cons q rest ih =>
    intro files hall p hp
    obtain ⟨s, d⟩ := q
    have hhead : (resize_image codec files s d E).ok = true := by
      have := hall (resize_image codec files s d E).ok
      apply this
      simp [runTasks]
    have hfiles : (resize_image codec files s d E).files = d :: files :=
      resize_image_files_of_ok codec files s d E hhead
    have hrest : ∀ b ∈ (runTasks codec E rest (resize_image codec files s d E).files).1,
        b = true := by
      intro b hb
      apply hall
      simp [runTasks]
      right
      exact hb
    rcases List.mem_cons.mp hp with hp | hp
    · have hd : d ∈ (resize_image codec files s d E).files := by
        rw [hfiles]; exact List.mem_cons_self d files
      have := runTasks_files_sub codec E rest (resize_image codec files s d E).files hd
      rw [hp]
      simpa [runTasks] using this
    · have := ih (resize_image codec files s d E).files hrest p hp
      simpa [runTasks] using this

/-! ### Facts about the enumerator and the directory-level driver -/

lemma enumerate_sound (files names : List String) (src dst : String) :
    ∀ p ∈ enumerate files names src dst,
      ∃ name ∈ names, splitextExt name ∈ image_ext_set ∧
        p = (pathJoin src name, pathJoin dst name) ∧ p.2 ∉ files := by
  intro p hp
  unfold enumerate at hp
  rcases List.mem_filterMap.mp hp with ⟨name, hname, hmap⟩
  by_cases h1 : splitextExt name ∈ image_ext_set
  · by_cases h2 : pathJoin dst name ∈ files
    · simp [h1, h2] at hmap
    · simp [h1, h2] at hmap
      exact ⟨name, hname, h1, hmap.symm, by rw [← hmap]; exact h2⟩
  · simp [h1] at hmap

lemma enumerate_mem (files names : List String) (src dst : String)
    (name : String) (h1 : name ∈ names) (h2 : splitextExt name ∈ image_ext_set)
    (h3 : pathJoin dst name ∉ files) :
    (pathJoin src name, pathJoin dst name) ∈ enumerate files names src dst := by
  unfold enumerate
  exact List.mem_filterMap.mpr ⟨name, h1, by simp [h2, h3]⟩

lemma enumerate_eq_nil (files names : List String) (src dst : String)
    (h : ∀ name ∈ names, splitextExt name ∈ image_ext_set →
      pathJoin dst name ∈ files) :
    enumerate files names src dst = [] := by
  unfold enumerate
  apply List.filterMap_eq_nil_iff.mpr
  intro name hname
  by_cases h1 : splitextExt name ∈ image_ext_set
  · simp [h1, h name hname h1]
  · simp [h1]

lemma mkdirs_files (fs : FS) (d : String) : (mkdirs fs d).files = fs.files := by
  unfold mkdirs
  split <;> rfl

lemma mkdirs_listing (fs : FS) (d : String) :
    (mkdirs fs d).listing = fs.listing := by
  unfold mkdirs
  split <;> rfl

lemma mkdirs_isDir_mono (fs : FS) (d p : String) (h : fs.isDir p = true) :
    (mkdirs fs d).isDir p = true := by
  unfold mkdirs
  split
  · simp [h]
  · exact h

lemma resize_image_dir_eq_notdir (codec : Codec) (fs : FS)
    (src dst : String) (E : ℤ) (h : fs.isDir src = false) :
    resize_image_dir codec fs src dst E =
      { ok := false, pairs := [], okCnt := 0, failCnt := 0,
        msgs := ["dir not exist: " ++ src], fs := fs } := by
  unfold resize_image_dir
  rw [if_pos h]

lemma resize_image_dir_eq_nothing (codec : Codec) (fs : FS)
    (src dst : String) (E : ℤ) (h : fs.isDir src = true)
    (hp : enumerate fs.files (fs.listing src) src dst = []) :
    resize_image_dir codec fs src dst E =
      { ok := true, pairs := [], okCnt := 0, failCnt := 0,
        msgs := ["no image to resize"], fs := mkdirs fs dst } := by
  unfold resize_image_dir
  rw [if_neg (by simp [h])]
  simp only [mkdirs_files, mkdirs_listing, hp]
  rfl

lemma resize_image_dir_eq_run (codec : Codec) (fs : FS)
    (src dst : String) (E : ℤ) (h : fs.isDir src = true)
    (hp : enumerate fs.files (fs.listing src) src dst ≠ []) :
    resize_image_dir codec fs src dst E =
      { ok := true,
        pairs := enumerate fs.files (fs.listing src) src dst,
        okCnt := (tally (runTasks codec E
          (enumerate fs.files (fs.listing src) src dst) fs.files).1).1,
        failCnt := (tally (runTasks codec E
          (enumerate fs.files (fs.listing src) src dst) fs.files).1).2,
        msgs := (runTasks codec E
          (enumerate fs.files (fs.listing src) src dst) fs.files).2.1,
        fs := { mkdirs fs dst with files := (runTasks codec E
          (enumerate fs.files (fs.listing src) src dst) fs.files).2.2 } } := by
  unfold resize_image_dir
  rw [if_neg (by simp [h])]
  simp only [mkdirs_files, mkdirs_listing]
  rw [if_neg (by simpa [List.isEmpty_iff] using hp)]

/-! ### Facts about single-item failure modes -/

lemma resize_image_not_file (codec : Codec) (files : List String)
    (src dst : String) (E : ℤ) (h : src ∉ files) :
    resize_image codec files src dst E =
      { ok := false, msgs := ["file not exist: " ++ src], files := files } := by
  simp [resize_image, h]

lemma resize_image_exc (codec : Codec) (files : List String)
    (src dst : String) (E : ℤ) (hfile : src ∈ files)
    (hexc : codec.imread src = none ∨
      ∃ img, codec.imread src = some img ∧
        (img.h = 0 ∨ codec.resizeRaises img (scaleDims img.w img.h E) = true ∨
          codec.imwriteRaises dst = true)) :
    resize_image codec files src dst E =
      { ok := false, msgs := [resizeFailMsg src], files := files } := by
  rcases hexc with hnone | ⟨img, himg, hcase⟩
  · simp [resize_image, hfile, hnone]
  · by_cases h0 : img.h = 0
    · simp [resize_image, hfile, himg, h0]
    · by_cases hr : codec.resizeRaises img (scaleDims img.w img.h E) = true
      · simp [resize_image, hfile, himg, h0, hr]
      · have hw : codec.imwriteRaises dst = true := by
          rcases hcase with h | h | h
          · exact absurd h h0
          · exact absurd h hr
          · exact h
        simp [resize_image, hfile, himg, h0, hr, hw]

lemma runTasks_missing_src (codec : Codec) (E : ℤ) (s0 : String) :
    ∀ (pairs : List (String × String)) (files : List String) (d0 : String),
      (s0, d0) ∈ pairs → s0 ∉ files → (∀ p ∈ pairs, p.2 ≠ s0) →
      false ∈ (runTasks codec E pairs files).1 ∧
        ("file not exist: " ++ s0) ∈ (runTasks codec E pairs files).2.1 := by
  intro pairs
  induction pairs with
  | nil => intro files d0 h; exact absurd h (List.not_mem_nil _)
  | cons q rest ih =>
    intro files d0 hmem hnot hdst
    obtain ⟨s, d⟩ := q
    rcases List.mem_cons.mp hmem with heq | hmem'
    · have hs : s = s0 := (Prod.mk.injEq _ _ _ _ |>.mp heq.symm).1
      subst hs
      have hri := resize_image_not_file codec files s d E hnot
      constructor
      · simp [runTasks, hri]
      · simp [runTasks, hri]
    · have hd_ne : d ≠ s0 := hdst (s, d) (List.mem_cons_self _ _)
      have hs0 : s0 ∉ (resize_image codec files s d E).files := by
        rcases resize_image_files_cases codec files s d E with hc | hc <;> rw [hc]
        · exact hnot
        · intro hx
          rcases List.mem_cons.mp hx with h | h
          · exact hd_ne h.symm
          · exact hnot h
      have hrec := ih (resize_image codec files s d E).files d0 hmem' hs0
        (fun p hp => hdst p (List.mem_cons_of_mem _ hp))
      constructor
      · simp only [runTasks, List.mem_cons]
        right
        exact hrec.1
      · simp only [runTasks, List.mem_append]
        right
        exact hrec.2

/-! ### Claim theorems -/

/-- **C1** (confirmed): for every decoded image, if `w > h` the new width is
`larger_edge` and the new height is the truncation toward zero of
`larger_edge / (w / h)` — which, the quantities being nonnegative, is the
natural floor division `E * h / w` — and otherwise (square images included)
the new height is `larger_edge` and the new width is the truncation of
`larger_edge * (w / h)`, i.e. `E * w / h`; in particular a 200x100 image at
`E = 160` yields 160x80 and a 100x200 image yields 80x160. -/
theorem C1_scaling_policy :
    (∀ w h E : ℕ,
      scaleDims w h (E : ℤ) =
        if w > h then ((E : ℤ), ((E * h / w : ℕ) : ℤ))
        else (((E * w / h : ℕ) : ℤ), (E : ℤ))) ∧
    scaleDims 200 100 160 = (160, 80) ∧
    scaleDims 100 200 160 = (80, 160) :=
  ⟨fun w h E => scaleDims_eq w h E,
    by norm_num [scaleDims, pyInt],
    by norm_num [scaleDims, pyInt]⟩

/-- **C2** (counterexample): a 100x3 image at `larger_edge = 50` scales to
50x1, and there the claimed tolerance fails: the output aspect ratio 50
differs from the source aspect ratio 100/3 by 50/3, which exceeds
`1 / min(new_width, new_height) = 1`. -/
theorem C2_aspect_counterexample :
    scaleDims 100 3 50 = (50, 1) ∧
    ¬ (|(((scaleDims 100 3 50).1 : ℚ)) / (((scaleDims 100 3 50).2 : ℚ)) -
          (100 : ℚ) / (3 : ℚ)|
        ≤ 1 / ((min (scaleDims 100 3 50).1 (scaleDims 100 3 50).2 : ℤ) : ℚ)) := by
  have h : scaleDims 100 3 50 = (50, 1) := by norm_num [scaleDims, pyInt]
  refine ⟨h, ?_⟩
  rw [h]
  norm_num
  rw [abs_of_nonneg (by norm_num)]
  norm_num

/-- **C2** (amended): for positive `w`, `h`, `E` the larger output edge
always equals `E`; the claimed aspect-ratio tolerance
`1 / min(new_width, new_height)` does hold on the height-driven (`w ≤ h`)
branch whenever the smaller output edge is positive, but on the
width-driven (`w > h`) branch only the reciprocal orientation is bounded:
`new_height / new_width` is within `1 / E` of `h / w`. -/
theorem C2_aspect_amended (w h E : ℕ) (hw : 0 < w) (hh : 0 < h) (hE : 0 < E) :
    max (scaleDims w h (E : ℤ)).1 (scaleDims w h (E : ℤ)).2 = (E : ℤ) ∧
    (w ≤ h → 0 < (scaleDims w h (E : ℤ)).1 →
      |(((scaleDims w h (E : ℤ)).1 : ℚ)) / (((scaleDims w h (E : ℤ)).2 : ℚ)) -
          (w : ℚ) / (h : ℚ)|
        ≤ 1 / ((min (scaleDims w h (E : ℤ)).1 (scaleDims w h (E : ℤ)).2 : ℤ) : ℚ)) ∧
    (h < w →
      |(((scaleDims w h (E : ℤ)).2 : ℚ)) / (((scaleDims w h (E : ℤ)).1 : ℚ)) -
          (h : ℚ) / (w : ℚ)|
        ≤ 1 / (E : ℚ)) := by
  rw [scaleDims_eq]
  by_cases hcase : h < w
  · rw [if_pos hcase]
    dsimp only
    have hm : E * h / w ≤ E :=
      div_le_of_le (E * h) E w hw (Nat.mul_le_mul_left E hcase.le)
    refine ⟨?_, ?_, ?_⟩
    · simp only [max_eq_left_iff]
      exact_mod_cast hm
    · intro hle
      exact absurd hcase (not_lt.mpr hle)
    · intro _
      have hb := aspect_bound_if w h E hw hE
      push_cast at hb ⊢
      exact hb
  · rw [if_neg hcase]
    dsimp only
    push_neg at hcase
    have hm : E * w / h ≤ E :=
      div_le_of_le (E * w) E h hh (Nat.mul_le_mul_left E hcase)
    refine ⟨?_, ?_, ?_⟩
    · simp only [max_eq_right_iff]
      exact_mod_cast hm
    · intro _ hpos
      have hpos' : 0 < E * w / h := by exact_mod_cast hpos
      have hb := aspect_bound_else w h E hh hE hcase hpos'
      have hmin : min (((E * w / h : ℕ) : ℤ)) ((E : ℕ) : ℤ) = ((E * w / h : ℕ) : ℤ) := by
        simp only [min_eq_left_iff]
        exact_mod_cast hm
      rw [hmin]
      push_cast at hb ⊢
      exact hb
    · intro hlt
      exact absurd hlt (not_lt.mpr hcase)

/-- **C3** (confirmed): whenever an exception is raised inside the `try`
block — a failed decode (`imread` returning no data, so unpacking
`img.shape` raises), a zero height making `float(w) / h` raise, a raising
`cv2.resize`, or a raising `cv2.imwrite` — `resize_image` catches it,
prints the failure message and returns `False`; and the batch loop still
yields exactly one counted result per submitted item, so a per-item failure
never aborts the batch. -/
theorem C3_errors_caught (codec : Codec) (files : List String)
    (src dst : String) (E : ℤ) (pairs : List (String × String))
    (files0 : List String)
    (hfile : src ∈ files)
    (hexc : codec.imread src = none ∨
      ∃ img, codec.imread src = some img ∧
        (img.h = 0 ∨ codec.resizeRaises img (scaleDims img.w img.h E) = true ∨
          codec.imwriteRaises dst = true)) :
    (resize_image codec files src dst E).ok = false ∧
    (resize_image codec files src dst E).msgs = [resizeFailMsg src] ∧
    ((runTasks codec E pairs files0).1).length = pairs.length ∧
    (tally (runTasks codec E pairs files0).1).1 +
      (tally (runTasks codec E pairs files0).1).2 = pairs.length := by
  have h := resize_image_exc codec files src dst E hfile hexc
  refine ⟨by rw [h], by rw [h], runTasks_length codec E pairs files0, ?_⟩
  rw [tally_sum]
  exact runTasks_length codec E pairs files0

/-- **C4** (confirmed): `resize_image_dir` returns `True` exactly when the
source directory exists (individual failures never change the return
value), and `False` exactly when it does not. -/
theorem C4_return_value (codec : Codec) (fs : FS) (src dst : String) (E : ℤ) :
    (resize_image_dir codec fs src dst E).ok = fs.isDir src := by
  cases hdir : fs.isDir src with
  | false => rw [resize_image_dir_eq_notdir codec fs src dst E hdir]
  | true =>
    by_cases hp : enumerate fs.files (fs.listing src) src dst = []
    · rw [resize_image_dir_eq_nothing codec fs src dst E hdir hp]
    · rw [resize_image_dir_eq_run codec fs src dst E hdir hp]

/-- **C5** (confirmed): each completed task increments exactly one of the
two counters, so after any prefix of the completion order the counters sum
to the number of completed tasks; the tally is invariant under the
(arbitrary) completion order; and for `N` tasks of which `k` fail, the
final summary is `ok = N - k`, `fail = k`, `ok + fail = N` — in particular
the driver's counters always sum to the number of submitted work items. -/
theorem C5_counter_invariant (results l l2 : List Bool) (hperm : l.Perm l2)
    (n : ℕ) (r : Bool) (codec : Codec) (fs : FS) (src dst : String) (E : ℤ) :
    tally (results ++ [r]) =
      (if r then ((tally results).1 + 1, (tally results).2)
       else ((tally results).1, (tally results).2 + 1)) ∧
    (tally (results.take n)).1 + (tally (results.take n)).2 =
      (results.take n).length ∧
    tally l = tally l2 ∧
    (tally results).1 = results.length - results.count false ∧
    (tally results).2 = results.count false ∧
    (tally results).1 + (tally results).2 = results.length ∧
    (resize_image_dir codec fs src dst E).okCnt +
        (resize_image_dir codec fs src dst E).failCnt =
      (resize_image_dir codec fs src dst E).pairs.length := by
  refine ⟨?_, tally_sum _, ?_, ?_, tally_snd _, tally_sum _, ?_⟩
  · rw [tally_eq_counts, tally_eq_counts]
    cases r <;> simp [List.count_append]
  · rw [tally_eq_counts, tally_eq_counts, hperm.count_eq true, hperm.count_eq false]
  · rw [tally_fst]
    have := count_true_add_count_false results
    have hlen := results.count_le_length false
    omega
  · cases hdir : fs.isDir src with
    | false =>
      rw [resize_image_dir_eq_notdir codec fs src dst E hdir]
      rfl
    | true =>
      by_cases hp : enumerate fs.files (fs.listing src) src dst = []
      · rw [resize_image_dir_eq_nothing codec fs src dst E hdir hp]
        rfl
      · rw [resize_image_dir_eq_run codec fs src dst E hdir hp]
        dsimp only
        rw [tally_sum]
        exact runTasks_length codec E _ _

/-- **C6** (confirmed): the enumerator never emits a work item whose
destination path is already a regular file; and after a fully successful
run (no counted failure) a second run on the same source and destination
builds an empty work-item list, reports `no image to resize`, returns
`True` and runs no task. -/
theorem C6_idempotent (codec : Codec) (fs : FS) (src dst : String) (E : ℤ)
    (hdir : fs.isDir src = true)
    (hfail : (resize_image_dir codec fs src dst E).failCnt = 0) :
    (∀ p ∈ (resize_image_dir codec fs src dst E).pairs, p.2 ∉ fs.files) ∧
    (resize_image_dir codec
        (resize_image_dir codec fs src dst E).fs src dst E).pairs = [] ∧
    (resize_image_dir codec
        (resize_image_dir codec fs src dst E).fs src dst E).ok = true ∧
    (resize_image_dir codec
        (resize_image_dir codec fs src dst E).fs src dst E).msgs =
      ["no image to resize"] ∧
    (resize_image_dir codec
        (resize_image_dir codec fs src dst E).fs src dst E).okCnt = 0 ∧
    (resize_image_dir codec
        (resize_image_dir codec fs src dst E).fs src dst E).failCnt = 0 := by
  by_cases hp : enumerate fs.files (fs.listing src) src dst = []
  · rw [resize_image_dir_eq_nothing codec fs src dst E hdir hp]
    dsimp only
    have hdir2 : (mkdirs fs dst).isDir src = true := mkdirs_isDir_mono fs dst src hdir
    have hp2 : enumerate (mkdirs fs dst).files ((mkdirs fs dst).listing src) src dst
        = [] := by
      rw [mkdirs_files, mkdirs_listing]
      exact hp
    rw [resize_image_dir_eq_nothing codec (mkdirs fs dst) src dst E hdir2 hp2]
    exact ⟨fun p hp => absurd hp (List.not_mem_nil p), rfl, rfl, rfl, rfl, rfl⟩
  · rw [resize_image_dir_eq_run codec fs src dst E hdir hp] at hfail ⊢
    dsimp only at hfail ⊢
    have hall : ∀ b ∈ (runTasks codec E
        (enumerate fs.files (fs.listing src) src dst) fs.files).1, b = true := by
      apply all_true_of_count_false_eq_zero
      rw [← tally_snd]
      exact hfail
    constructor
    · intro p hpmem
      rcases enumerate_sound fs.files (fs.listing src) src dst p hpmem with
        ⟨nm, _, _, _, hnotin⟩
      exact hnotin
    · set F := (runTasks codec E
        (enumerate fs.files (fs.listing src) src dst) fs.files).2.2 with hF
      have hdone : ∀ nm ∈ fs.listing src, splitextExt nm ∈ image_ext_set →
          pathJoin dst nm ∈ F := by
        intro nm hnm hext
        by_cases hin : pathJoin dst nm ∈ fs.files
        · exact runTasks_files_sub codec E _ fs.files hin
        · have hpair := enumerate_mem fs.files (fs.listing src) src dst nm hnm hext hin
          have := runTasks_all_ok_dst codec E
            (enumerate fs.files (fs.listing src) src dst) fs.files hall
            (pathJoin src nm, pathJoin dst nm) hpair
          exact this
      have hdir2 : (mkdirs fs dst).isDir src = true := mkdirs_isDir_mono fs dst src hdir
      have hp2 : enumerate F ((mkdirs fs dst).listing src) src dst = [] := by
        rw [mkdirs_listing]
        exact enumerate_eq_nil F (fs.listing src) src dst hdone
      have heq := resize_image_dir_eq_nothing codec
        { mkdirs fs dst with files := F } src dst E hdir2 hp2
      rw [heq]
      exact ⟨rfl, rfl, rfl, rfl, rfl⟩

/-- **C7** (confirmed): a directory entry yields a work-item candidate
exactly when its `splitext` extension is, case-sensitively, one of `.jpg`,
`.png`, `.jpeg`: every emitted work item comes from such an entry, every
such entry whose destination does not yet exist is emitted, and `.txt` or
`.JPG` entries are never emitted. -/
theorem C7_extension_filter (files names : List String) (src dst : String) :
    (∀ p ∈ enumerate files names src dst,
      ∃ name ∈ names, splitextExt name ∈ image_ext_set ∧
        p = (pathJoin src name, pathJoin dst name)) ∧
    (∀ name ∈ names, splitextExt name ∈ image_ext_set →
      pathJoin dst name ∉ files →
      (pathJoin src name, pathJoin dst name) ∈ enumerate files names src dst) ∧
    image_ext_set = [".jpg", ".png", ".jpeg"] ∧
    splitextExt "notes.txt" = ".txt" ∧
    splitextExt "photo.JPG" = ".JPG" ∧
    ".txt" ∉ image_ext_set ∧
    ".JPG" ∉ image_ext_set := by
  refine ⟨?_, ?_, rfl, by decide, by decide, by decide, by decide⟩
  · intro p hp
    rcases enumerate_sound files names src dst p hp with ⟨nm, hnm, hext, hpe, _⟩
    exact ⟨nm, hnm, hext, hpe⟩
  · intro name h1 h2 h3
    exact enumerate_mem files names src dst name h1 h2 h3

/-- **C8** (confirmed): when the source path is not a regular file at
execution time, `resize_image` prints the diagnostic and returns `False`
with the filesystem unchanged; the result does not depend on the codec at
all (decode and encode are never attempted), and the function is total, so
nothing is raised or propagated. -/
theorem C8_source_missing (codec : Codec) (files : List String)
    (src dst : String) (E : ℤ) (h : src ∉ files) :
    resize_image codec files src dst E =
      { ok := false, msgs := ["file not exist: " ++ src], files := files } :=
  resize_image_not_file codec files src dst E h

/-- **C9** (code bug): the guard is `len(sys.argv) < 3`, i.e. fewer than
TWO positional arguments, while the program documents three; so zero or one
argument prints the usage text, three arguments run `resize_image_dir`, but
exactly two positional arguments reach `src_dir, dst_dir, larger_edge =
sys.argv[1:4]` with a two-element slice and crash with an uncaught
`ValueError` instead of printing usage. -/
theorem C9_cli_dispatch :
    mainStep ["resize_image.py"] = MainOutcome.usage ∧
    mainStep ["resize_image.py", "/tmp/images"] = MainOutcome.usage ∧
    mainStep ["resize_image.py", "/tmp/images", "/tmp/small"] =
      MainOutcome.unpackError ∧
    mainStep ["resize_image.py", "/tmp/images", "/tmp/small", "160"] =
      MainOutcome.run "/tmp/images" "/tmp/small" "160" :=
  ⟨rfl, rfl, rfl, rfl⟩

/-- **C10** (confirmed): the enumerator checks extensions and destination
existence but never that the entry is a regular file; a source-directory
entry that is not a regular file (e.g. a subdirectory named `*.jpg`) whose
destination is absent becomes a work item, and its task then fails through
`resize_image`'s is-file check — a printed `file not exist` diagnostic and
a counted failure.  (The hypothesis `hsep` rules out another task creating
a file at that very source path, i.e. the source entry is not among the
destination paths.) -/
theorem C10_dir_entry_enumerated (codec : Codec) (fs : FS)
    (src dst : String) (E : ℤ) (name : String)
    (hdir : fs.isDir src = true)
    (hmem : name ∈ fs.listing src)
    (hext : splitextExt name ∈ image_ext_set)
    (hdst : pathJoin dst name ∉ fs.files)
    (hsrc : pathJoin src name ∉ fs.files)
    (hsep : ∀ p ∈ (resize_image_dir codec fs src dst E).pairs,
      p.2 ≠ pathJoin src name) :
    (pathJoin src name, pathJoin dst name) ∈
        (resize_image_dir codec fs src dst E).pairs ∧
    ("file not exist: " ++ pathJoin src name) ∈
        (resize_image_dir codec fs src dst E).msgs ∧
    1 ≤ (resize_image_dir codec fs src dst E).failCnt := by
  have hpair := enumerate_mem fs.files (fs.listing src) src dst name hmem hext hdst
  have hne : enumerate fs.files (fs.listing src) src dst ≠ [] :=
    List.ne_nil_of_mem hpair
  rw [resize_image_dir_eq_run codec fs src dst E hdir hne] at hsep ⊢
  dsimp only at hsep ⊢
  have hrun := runTasks_missing_src codec E (pathJoin src name)
    (enumerate fs.files (fs.listing src) src dst) fs.files (pathJoin dst name)
    hpair hsrc hsep
  refine ⟨hpair, hrun.2, ?_⟩
  rw [tally_snd]
  exact List.count_pos_iff.mpr hrun.1

/-! ### Witnesses: the theorems above applied at concrete inputs -/

/-- Witness for C2 (amended) at a 2x3 image with larger edge 6. -/
theorem C2_aspect_amended_witness :
    0 < 2 ∧ 0 < 3 ∧ 0 < 6 ∧
    (max (scaleDims 2 3 ((6 : ℕ) : ℤ)).1 (scaleDims 2 3 ((6 : ℕ) : ℤ)).2 =
        ((6 : ℕ) : ℤ) ∧
      (2 ≤ 3 → 0 < (scaleDims 2 3 ((6 : ℕ) : ℤ)).1 →
        |(((scaleDims 2 3 ((6 : ℕ) : ℤ)).1 : ℚ)) /
              (((scaleDims 2 3 ((6 : ℕ) : ℤ)).2 : ℚ)) -
            ((2 : ℕ) : ℚ) / ((3 : ℕ) : ℚ)|
          ≤ 1 / ((min (scaleDims 2 3 ((6 : ℕ) : ℤ)).1
              (scaleDims 2 3 ((6 : ℕ) : ℤ)).2 : ℤ) : ℚ)) ∧
      (3 < 2 →
        |(((scaleDims 2 3 ((6 : ℕ) : ℤ)).2 : ℚ)) /
              (((scaleDims 2 3 ((6 : ℕ) : ℤ)).1 : ℚ)) -
            ((3 : ℕ) : ℚ) / ((2 : ℕ) : ℚ)|
          ≤ 1 / ((6 : ℕ) : ℚ))) :=
  ⟨by decide, by decide, by decide,
    C2_aspect_amended 2 3 6 (by decide) (by decide) (by decide)⟩

/-- Witness for C3 at a file whose decode fails. -/
theorem C3_errors_caught_witness :
    "in/a.jpg" ∈ ["in/a.jpg"] ∧
    egBadCodec.imread "in/a.jpg" = none ∧
    ((resize_image egBadCodec ["in/a.jpg"] "in/a.jpg" "out/a.jpg" 160).ok = false ∧
      (resize_image egBadCodec ["in/a.jpg"] "in/a.jpg" "out/a.jpg" 160).msgs =
        [resizeFailMsg "in/a.jpg"] ∧
      ((runTasks egBadCodec 160 [("in/a.jpg", "out/a.jpg")] ["in/a.jpg"]).1).length =
        [("in/a.jpg", "out/a.jpg")].length ∧
      (tally (runTasks egBadCodec 160 [("in/a.jpg", "out/a.jpg")] ["in/a.jpg"]).1).1 +
          (tally (runTasks egBadCodec 160
            [("in/a.jpg", "out/a.jpg")] ["in/a.jpg"]).1).2 =
        [("in/a.jpg", "out/a.jpg")].length) :=
  ⟨by decide, rfl,
    C3_errors_caught egBadCodec ["in/a.jpg"] "in/a.jpg" "out/a.jpg" 160
      [("in/a.jpg", "out/a.jpg")] ["in/a.jpg"] (by decide) (Or.inl rfl)⟩

/-- Witness for C5 at concrete result lists and a concrete run. -/
theorem C5_counter_invariant_witness :
    List.Perm [true, false] [false, true] ∧
    (tally ([true, false, true] ++ [false]) =
      (if false then ((tally [true, false, true]).1 + 1,
          (tally [true, false, true]).2)
        else ((tally [true, false, true]).1, (tally [true, false, true]).2 + 1)) ∧
    (tally ([true, false, true].take 2)).1 +
        (tally ([true, false, true].take 2)).2 =
      ([true, false, true].take 2).length ∧
    tally [true, false] = tally [false, true] ∧
    (tally [true, false, true]).1 =
      [true, false, true].length - [true, false, true].count false ∧
    (tally [true, false, true]).2 = [true, false, true].count false ∧
    (tally [true, false, true]).1 + (tally [true, false, true]).2 =
      [true, false, true].length ∧
    (resize_image_dir egBadCodec egFS "in" "out" 160).okCnt +
        (resize_image_dir egBadCodec egFS "in" "out" 160).failCnt =
      (resize_image_dir egBadCodec egFS "in" "out" 160).pairs.length) :=
  ⟨by decide,
    C5_counter_invariant [true, false, true] [true, false] [false, true]
      (by decide) 2 false egBadCodec egFS "in" "out" 160⟩

/-- Witness for C6: a run with nothing to do is trivially all-successful,
and the second run again reports nothing to do. -/
theorem C6_idempotent_witness :
    egFS.isDir "in" = true ∧
    (resize_image_dir egBadCodec egFS "in" "out" 160).failCnt = 0 ∧
    ((∀ p ∈ (resize_image_dir egBadCodec egFS "in" "out" 160).pairs,
        p.2 ∉ egFS.files) ∧
      (resize_image_dir egBadCodec
          (resize_image_dir egBadCodec egFS "in" "out" 160).fs "in" "out" 160).pairs
        = [] ∧
      (resize_image_dir egBadCodec
          (resize_image_dir egBadCodec egFS "in" "out" 160).fs "in" "out" 160).ok
        = true ∧
      (resize_image_dir egBadCodec
          (resize_image_dir egBadCodec egFS "in" "out" 160).fs "in" "out" 160).msgs
        = ["no image to resize"] ∧
      (resize_image_dir egBadCodec
          (resize_image_dir egBadCodec egFS "in" "out" 160).fs "in" "out" 160).okCnt
        = 0 ∧
      (resize_image_dir egBadCodec
          (resize_image_dir egBadCodec egFS "in" "out" 160).fs "in" "out" 160).failCnt
        = 0) := by
  have h1 : egFS.isDir "in" = true := by decide
  have h2 : (resize_image_dir egBadCodec egFS "in" "out" 160).failCnt = 0 := by decide
  exact ⟨h1, h2, C6_idempotent egBadCodec egFS "in" "out" 160 h1 h2⟩

/-- Witness for C7: `a.jpg` with no destination present is enumerated. -/
theorem C7_extension_filter_witness :
    (pathJoin "in" "a.jpg", pathJoin "out" "a.jpg") ∈
      enumerate [] ["a.jpg"] "in" "out" :=
  (C7_extension_filter [] ["a.jpg"] "in" "out").2.1 "a.jpg" (by decide) (by decide)
    (by decide)

/-- Witness for C8 at a vanished source file. -/
theorem C8_source_missing_witness :
    "gone.jpg" ∉ ([] : List String) ∧
    resize_image egCodec [] "gone.jpg" "out/gone.jpg" 160 =
      { ok := false, msgs := ["file not exist: " ++ "gone.jpg"], files := [] } :=
  ⟨by decide, C8_source_missing egCodec [] "gone.jpg" "out/gone.jpg" 160 (by decide)⟩

/-- Witness for C10: the subdirectory `in/sub.jpg` is enumerated and its
task yields a counted `file not exist` failure. -/
theorem C10_dir_entry_enumerated_witness :
    egSubdirFS.isDir "in" = true ∧
    "sub.jpg" ∈ egSubdirFS.listing "in" ∧
    splitextExt "sub.jpg" ∈ image_ext_set ∧
    pathJoin "out" "sub.jpg" ∉ egSubdirFS.files ∧
    pathJoin "in" "sub.jpg" ∉ egSubdirFS.files ∧
    (∀ p ∈ (resize_image_dir egCodec egSubdirFS "in" "out" 160).pairs,
      p.2 ≠ pathJoin "in" "sub.jpg") ∧
    ((pathJoin "in" "sub.jpg", pathJoin "out" "sub.jpg") ∈
        (resize_image_dir egCodec egSubdirFS "in" "out" 160).pairs ∧
      ("file not exist: " ++ pathJoin "in" "sub.jpg") ∈
        (resize_image_dir egCodec egSubdirFS "in" "out" 160).msgs ∧
      1 ≤ (resize_image_dir egCodec egSubdirFS "in" "out" 160).failCnt) := by
  have h1 : egSubdirFS.isDir "in" = true := by decide
  have h2 : "sub.jpg" ∈ egSubdirFS.listing "in" := by decide
  have h3 : splitextExt "sub.jpg" ∈ image_ext_set := by decide
  have h4 : pathJoin "out" "sub.jpg" ∉ egSubdirFS.files := by decide
  have h5 : pathJoin "in" "sub.jpg" ∉ egSubdirFS.files := by decide
  have h6 : ∀ p ∈ (resize_image_dir egCodec egSubdirFS "in" "out" 160).pairs,
      p.2 ≠ pathJoin "in" "sub.jpg" := by decide
  exact ⟨h1, h2, h3, h4, h5, h6,
    C10_dir_entry_enumerated egCodec egSubdirFS "in" "out" 160 "sub.jpg"
      h1 h2 h3 h4 h5 h6⟩

end ResizeImage
